import Mathlib

/-!
Verification development for the MCR humanizer engine.

This file gives a shallow embedding, in Lean 4, of the pure core of the
TypeScript sources:

* `shared/schema.ts` — the command model (`McrCommand`), canonical equality
  (`isCommandEqual`) and the zod validation schema for humanization settings;
* `server/services/patternService.ts` — frequent-subsequence pattern mining
  (`findFrequentSequences`, `minePatterns`, `calculateConfidence`,
  `generatePatternName`, `calculateSimilarity`), the Markov transition model
  (`analyzeCommandTransitions`, `getPredictedNextCommand`);
* `server/services/cacheService.ts` — the Redis-backed content-addressed
  cache, with backend unavailability and backend errors modelled explicitly;
* `server/services/profileService.ts` — humanization profiles and the
  single-default-profile discipline.

I/O boundaries (database lookups, file reads, Redis transport) are modelled
by explicit state passing: the database is a list of rows, Redis is an
optional backend value whose primitive operations may fail, and JavaScript
exceptions are modelled by `Except`.  JavaScript `Map` objects are modelled
as insertion-ordered association lists, matching the iteration-order
semantics of `Map`.  JavaScript's stable `Array.prototype.sort` is modelled
by `List.insertionSort`, which is stable.
-/

namespace Tum

/-- The `McrCommand` interface from `shared/schema.ts`.  The `type` field is
a union of string literals in TypeScript (and is cast with `as any` in one
place), so it is modelled as a plain `String`.  Optional fields are
`Option`s.  Numeric fields carry integers here; their values are never
inspected by the operations under study except as opaque payload. -/
structure McrCommand where
  type : String
  action : String
  key : Option String := none
  delay : Option Int := none
  x : Option Int := none
  y : Option Int := none
  text : Option String := none
deriving Repr, DecidableEq

/-- `isCommandEqual` from `shared/schema.ts` line 183:
`cmd1.key === cmd2.key && cmd1.action === cmd2.action`. -/
def isCommandEqual (cmd1 cmd2 : McrCommand) : Bool :=
  decide (cmd1.key = cmd2.key) && decide (cmd1.action = cmd2.action)

/-- `PatternService.sequenceToKey`: joins `type:action:key` per command with
`|`; a missing (or empty, via JS `||`) key contributes the empty string. -/
def sequenceToKey (sequence : List McrCommand) : String :=
  String.intercalate "|"
    (sequence.map fun cmd => cmd.type ++ ":" ++ cmd.action ++ ":" ++ cmd.key.getD "")

/-- The `SequencePattern` record accumulated by
`PatternService.findFrequentSequences`. -/
structure SequencePattern where
  sequence : List McrCommand
  frequency : Nat
  occurrences : List (String × Nat)
deriving Repr, DecidableEq

/-- One `patterns.set`/`get`/mutate round of the candidate map in
`findFrequentSequences`: if the canonical key is absent a fresh entry is
appended (JS `Map` insertion order), then its frequency is bumped and the
occurrence `(fileId, index)` is pushed.  The stored `sequence` is the literal
window of the first occurrence. -/
def updatePatternMap (m : List (String × SequencePattern)) (window : List McrCommand)
    (fileId : String) (i : Nat) : List (String × SequencePattern) :=
  let key := sequenceToKey window
  if m.any (fun e => decide (e.1 = key)) then
    m.map fun e =>
      if e.1 = key then
        (e.1, { e.2 with frequency := e.2.frequency + 1,
                         occurrences := e.2.occurrences ++ [(fileId, i)] })
      else e
  else
    m ++ [(key, { sequence := window, frequency := 1, occurrences := [(fileId, i)] })]

/-- Inner loop of `findFrequentSequences`: all start offsets
`0 ≤ i ≤ commands.length - len` of windows of length `len`. -/
def addWindowsOfLength (fileId : String) (commands : List McrCommand) (len : Nat)
    (m : List (String × SequencePattern)) : List (String × SequencePattern) :=
  (List.range (commands.length - len + 1)).foldl
    (fun m i => updatePatternMap m ((commands.drop i).take len) fileId i) m

/-- Outer loop of `findFrequentSequences`: window lengths from `minLength`
up to `min(commands.length, 15)` inclusive (empty range when
`minLength` exceeds the bound, as in the JS `for` loop). -/
def addFileWindows (fileId : String) (commands : List McrCommand) (minLength : Nat)
    (m : List (String × SequencePattern)) : List (String × SequencePattern) :=
  (List.range' minLength (min commands.length 15 + 1 - minLength)).foldl
    (fun m len => addWindowsOfLength fileId commands len m) m

/-- Descending-frequency ordering used by the JS comparator
`(a, b) => b.frequency - a.frequency`. -/
def freqDesc (a b : SequencePattern) : Prop := b.frequency ≤ a.frequency

instance : DecidableRel freqDesc := fun a b =>
  inferInstanceAs (Decidable (b.frequency ≤ a.frequency))

instance : IsTotal SequencePattern freqDesc :=
  ⟨fun a b => (Nat.le_total b.frequency a.frequency).imp id id⟩

instance : IsTrans SequencePattern freqDesc :=
  ⟨fun _ _ _ hab hbc => Nat.le_trans hbc hab⟩

/-- `PatternService.findFrequentSequences` (patternService.ts lines 347–379):
accumulate every contiguous window of every input stream into the candidate
map, drop candidates below `minFrequency`, sort by descending frequency
(stably, as V8's `Array.prototype.sort` is stable) and keep the top 100. -/
def findFrequentSequences (allCommands : List (String × List McrCommand))
    (minLength minFrequency : Nat) : List SequencePattern :=
  (List.insertionSort freqDesc
      (((allCommands.foldl (fun m f => addFileWindows f.1 f.2 minLength m) []).map
          Prod.snd).filter fun p => decide (minFrequency ≤ p.frequency))).take 100

/-- `PatternService.calculateConfidence`:
`Math.min(frequency / (totalFiles * 2), 1.0)`.  In JavaScript, division of a
positive numerator by zero yields `Infinity`, so the minimum is `1.0`; the
`totalFiles = 0` branch makes that explicit (it is unreachable from
`minePatterns`, which only reaches this call when at least one file was
supplied). -/
def calculateConfidence (frequency totalFiles : Nat) : ℚ :=
  if totalFiles = 0 then 1
  else min ((frequency : ℚ) / ((totalFiles : ℚ) * 2)) 1

/-- JS truthiness of the optional `key` field (`c.key` is falsy when absent
or the empty string). -/
def keyTruthy : Option String → Bool
  | none => false
  | some s => decide (s ≠ "")

/-- `PatternService.generatePatternName`: join the keys of keyboard commands
with `-`, truncate to 30 characters (`substring(0, 30)`), prefix
`"Pattern: "`; without keyboard commands, `"Pattern: N commands"`. -/
def generatePatternName (sequence : List McrCommand) : String :=
  let keyboardCommands := sequence.filter fun c => decide (c.type = "keyboard") && keyTruthy c.key
  if keyboardCommands.isEmpty then
    "Pattern: " ++ toString sequence.length ++ " commands"
  else
    "Pattern: " ++
      String.mk ((String.intercalate "-" (keyboardCommands.map fun c => c.key.getD "")).toList.take 30)

/-- First-occurrence deduplication, the semantics of
`Array.from(new Set(xs))`. -/
def dedupFirst (l : List String) : List String :=
  l.foldl (fun acc x => if x ∈ acc then acc else acc ++ [x]) []

/-- A pattern row as persisted by `PatternService.minePatterns`.  The
`metadata` column (mean/stddev of delays, usage counters) is not modelled:
no claim under study observes it, and its standard deviation needs real
square roots. -/
structure MinedPattern where
  name : String
  commandSequence : List McrCommand
  frequency : Nat
  confidence : ℚ
  sourceFileIds : List String
deriving Repr, DecidableEq

/-- `PatternService.minePatterns` (patternService.ts lines 293–345), with the
I/O boundary made explicit: each supplied file id is paired with `some`
parsed command stream, or `none` when the database lookup fails (such files
are skipped, yet still counted by `fileIds.length` in the confidence
denominator, exactly as in the source). -/
def minePatterns (files : List (String × Option (List McrCommand)))
    (minSequenceLength minFrequency : Nat) : List MinedPattern :=
  (findFrequentSequences (files.filterMap fun f => f.2.map fun cs => (f.1, cs))
      minSequenceLength minFrequency).map fun p =>
    { name := generatePatternName p.sequence
      commandSequence := p.sequence
      frequency := p.frequency
      confidence := calculateConfidence p.frequency files.length
      sourceFileIds := dedupFirst (p.occurrences.map Prod.fst) }

/-- The positional match test of `calculateSimilarity`:
`seq1[i].type === seq2[i].type && seq1[i].action === seq2[i].action &&
seq1[i].key === seq2[i].key`. -/
def similarityMatch (pr : McrCommand × McrCommand) : Bool :=
  decide (pr.1.type = pr.2.type ∧ pr.1.action = pr.2.action ∧ pr.1.key = pr.2.key)

/-- `PatternService.calculateSimilarity` (patternService.ts lines 455–471):
positional comparison up to the shorter length, counting positions where
`type`, `action` and `key` all agree; score is `matches / max(len1, len2)`,
and `0` when the shorter sequence is empty. -/
def calculateSimilarity (seq1 seq2 : List McrCommand) : ℚ :=
  if min seq1.length seq2.length = 0 then 0
  else
    ((List.countP similarityMatch (seq1.zip seq2) : ℚ)) /
      ((max seq1.length seq2.length : Nat) : ℚ)

/-! ### Transition model (Markov chain) -/

/-- The canonical state key used by the transition model:
`` `${cmd.type}:${cmd.key || cmd.action}` `` — note the JS `||`, under which
an *empty-string* key also falls back to the action. -/
def transitionKey (cmd : McrCommand) : String :=
  cmd.type ++ ":" ++
    (match cmd.key with
     | some k => if k = "" then cmd.action else k
     | none => cmd.action)

/-- A `TransitionTable`, `Map<string, Map<string, number>>`, as an
insertion-ordered association list. -/
abbrev TransitionTable := List (String × List (String × Nat))

/-- `nextMap.set(next, (nextMap.get(next) || 0) + 1)`: bump the counter for
`next`, appending a fresh entry with count 1 when absent (JS `Map` keeps
insertion order and updates in place). -/
def bumpInner : List (String × Nat) → String → List (String × Nat)
  | [], next => [(next, 1)]
  | e :: rest, next =>
    if e.1 = next then (e.1, e.2 + 1) :: rest else e :: bumpInner rest next

/-- One iteration of the inner loop of `analyzeCommandTransitions`: ensure an
entry for `current` exists (appended when fresh), then bump its counter for
`next`. -/
def bumpTransition : TransitionTable → String → String → TransitionTable
  | [], current, next => [(current, bumpInner [] next)]
  | e :: rest, current, next =>
    if e.1 = current then (e.1, bumpInner e.2 next) :: rest
    else e :: bumpTransition rest current next

/-- All adjacent-pair transitions of a single command stream:
`for (i = 0; i < commands.length - 1; i++)` over
`(commands[i], commands[i+1])`. -/
def addSequenceTransitions (t : TransitionTable) (commands : List McrCommand) :
    TransitionTable :=
  (commands.zip commands.tail).foldl
    (fun t pr => bumpTransition t (transitionKey pr.1) (transitionKey pr.2)) t

/-- `PatternService.analyzeCommandTransitions` (patternService.ts lines
473–501), with the I/O boundary made explicit: the input is the list of
parsed command streams (file ids whose database lookup fails contribute
nothing, exactly as the `continue` in the source). -/
def analyzeCommandTransitions (files : List (List McrCommand)) : TransitionTable :=
  files.foldl addSequenceTransitions []

/-- Observer: `transitions.get(a)?.get(b)`, with 0 for absent entries. -/
def innerCount : List (String × Nat) → String → Nat
  | [], _ => 0
  | e :: rest, b => if e.1 = b then e.2 else innerCount rest b

/-- Observer: the count stored at `a -> b`, 0 when absent. -/
def transitionCount : TransitionTable → String → String → Nat
  | [], _, _ => 0
  | e :: rest, a, b => if e.1 = a then innerCount e.2 b else transitionCount rest a b

/-- Specification-side counter, written from the spec's words (§4.2): the
number of adjacent pairs `(cmd[i], cmd[i+1])` *within* each sequence (never
across sequence boundaries) whose state keys are `a -> b`.  It is compared
with the table built by `analyzeCommandTransitions`. -/
def specAdjacentPairCount (files : List (List McrCommand)) (a b : String) : Nat :=
  (files.map fun cs =>
    List.countP
      (fun pr : McrCommand × McrCommand =>
        decide (transitionKey pr.1 = a ∧ transitionKey pr.2 = b))
      (cs.zip cs.tail)).sum

/-- The scan for the highest-count successor in
`getPredictedNextCommand`: `if (count > maxCount)` keeps the *first* edge
achieving the maximum, starting from `maxCount = 0`, `bestNext = ''`. -/
def selectBestAux : List (String × Nat) → String × Nat → String × Nat
  | [], acc => acc
  | e :: rest, acc => selectBestAux rest (if acc.2 < e.2 then (e.1, e.2) else acc)

/-- `bestNext.split(':')` of JavaScript, on the `:` separator:
`"".split(':')` is `[""]`. -/
def splitColon (s : String) : List String :=
  splitColonAux s.toList []
where
  splitColonAux : List Char → List Char → List String
    | [], acc => [String.mk acc.reverse]
    | c :: rest, acc =>
      if c = ':' then String.mk acc.reverse :: splitColonAux rest []
      else splitColonAux rest (c :: acc)

/-- Rebuilding the predicted command from the selected state key:
`const [type, keyOrAction] = bestNext.split(':')`, then
`{ type, action: type === 'keyboard' ? 'keydown' : keyOrAction, key: ... }`.
When the key contains no separator, JavaScript leaves a non-keyboard
`action` as `undefined`; that unreachable corner (state keys produced by
`transitionKey` always contain `:`) is modelled as `""`. -/
def commandFromStateKey (s : String) : McrCommand :=
  let parts := splitColon s
  let ty := parts.headD ""
  let keyOrAction := parts[1]?
  if ty = "keyboard" then
    { type := ty, action := "keydown", key := keyOrAction }
  else
    { type := ty, action := keyOrAction.getD "", key := none }

/-- `PatternService.getPredictedNextCommand` (patternService.ts lines
503–531): `null` for an empty history, `null` when the last command's state
has no entry or an empty edge map; otherwise the first-encountered
highest-count successor, rebuilt as a command. -/
def getPredictedNextCommand (previousCommands : List McrCommand)
    (transitions : TransitionTable) : Option McrCommand :=
  match previousCommands.getLast? with
  | none => none
  | some lastCmd =>
    match transitions.find? (fun e => decide (e.1 = transitionKey lastCmd)) with
    | none => none
    | some entry =>
      if entry.2.isEmpty then none
      else some (commandFromStateKey (selectBestAux entry.2 ("", 0)).1)

/-- Observer used to state the prediction claims: the outgoing edge map of
the last command of the history, when both exist. -/
def lastStateEdges (previousCommands : List McrCommand) (transitions : TransitionTable) :
    Option (List (String × Nat)) :=
  previousCommands.getLast?.bind fun lastCmd =>
    (transitions.find? (fun e => decide (e.1 = transitionKey lastCmd))).map Prod.snd

/-! ### Content-addressed cache (`server/services/cacheService.ts`)

The Redis client is `Redis | null` on the service; primitive backend calls
may throw (connection failures), modelled by an `Except` over a `failing`
flag on the backend.  TTLs are wall-clock concerns and are not modelled; a
`setex` simply stores the value.  `JSON.stringify`/`JSON.parse` round-trips
are modelled by explicit textual encoding of the payload; reads return the
stored payload verbatim. -/

/-- Errors a cache operation can surface to its caller. -/
inductive CacheError where
  /-- A thrown Redis/transport error. -/
  | backendFailure
  /-- JS `TypeError` from dereferencing the `null` client. -/
  | nullDereference
deriving Repr, DecidableEq

/-- The Redis backend: a key-value store, plus a flag making every primitive
operation throw (connection loss). -/
structure RedisBackend where
  failing : Bool
  store : List (String × String)
deriving Repr, DecidableEq

/-- Store (or overwrite) a key, preserving first-insertion order. -/
def setAssoc : List (String × String) → String → String → List (String × String)
  | [], k, v => [(k, v)]
  | e :: rest, k, v => if e.1 = k then (k, v) :: rest else e :: setAssoc rest k v

/-- `redis.get`. -/
def redisGet (b : RedisBackend) (key : String) : Except CacheError (Option String) :=
  if b.failing then .error .backendFailure
  else .ok ((b.store.find? fun e => decide (e.1 = key)).map Prod.snd)

/-- `redis.setex` (TTL not modelled). -/
def redisSetex (b : RedisBackend) (key value : String) : Except CacheError RedisBackend :=
  if b.failing then .error .backendFailure
  else .ok { b with store := setAssoc b.store key value }

/-- `redis.incr`: parse the stored decimal (0 when absent) and store the
successor, returning it. -/
def redisIncr (b : RedisBackend) (key : String) : Except CacheError (Nat × RedisBackend) :=
  if b.failing then .error .backendFailure
  else
    let cur := ((b.store.find? fun e => decide (e.1 = key)).map Prod.snd).bind
      (fun s => s.toNat?) |>.getD 0
    .ok (cur + 1, { b with store := setAssoc b.store key (toString (cur + 1)) })

/-- `needle` occurs as a contiguous run inside `hay`. -/
def containsSub : List Char → List Char → Bool
  | [], needle => needle.isEmpty
  | c :: rest, needle => needle.isPrefixOf (c :: rest) || containsSub rest needle

/-- Match against the glob `` `mcr:*:${fileHash}*` `` used by
`invalidateFileCache`. -/
def invalidationPatternMatch (k fileHash : String) : Bool :=
  ("mcr:".toList).isPrefixOf k.toList &&
    containsSub (k.toList.drop 4) ((":" ++ fileHash).toList)

/-- `redis.keys(pattern)` for the invalidation glob. -/
def redisKeys (b : RedisBackend) (fileHash : String) : Except CacheError (List String) :=
  if b.failing then .error .backendFailure
  else .ok ((b.store.map Prod.fst).filter fun k => invalidationPatternMatch k fileHash)

/-- `redis.del(...keys)`. -/
def redisDel (b : RedisBackend) (keys : List String) : Except CacheError RedisBackend :=
  if b.failing then .error .backendFailure
  else .ok { b with store := b.store.filter fun e => decide (e.1 ∉ keys) }

/-- `redis.flushdb()`. -/
def redisFlushdb (b : RedisBackend) : Except CacheError RedisBackend :=
  if b.failing then .error .backendFailure
  else .ok { b with store := [] }

/-- The `CacheService` instance state: the nullable client and the
`enabled` flag toggled by connection events. -/
structure CacheService where
  redis : Option RedisBackend
  enabled : Bool
deriving Repr, DecidableEq

/-- The service state after Redis failed to connect (`this.enabled = false;
this.redis = null`). -/
def downCacheService : CacheService := { redis := none, enabled := false }

/-- Explicit textual encoding standing in for `JSON.stringify` of a command
(the exact format is irrelevant to the properties proved about the cache). -/
def encodeCommand (c : McrCommand) : String :=
  c.type ++ ";" ++ c.action ++ ";" ++ c.key.getD "" ++ ";" ++
    (match c.delay with | some d => toString d | none => "") ++ ";" ++
    (match c.x with | some v => toString v | none => "") ++ ";" ++
    (match c.y with | some v => toString v | none => "") ++ ";" ++
    c.text.getD ""

/-- `JSON.stringify(commands)`, as an explicit encoding. -/
def encodeCommands (commands : List McrCommand) : String :=
  String.intercalate "," (commands.map encodeCommand)

/-- `cacheCommands` (cacheService.ts lines 49–57): guarded by
`enabled`/null-check, body wrapped in try/catch that silently ignores
backend errors. -/
def cacheCommands (s : CacheService) (fileHash : String) (commands : List McrCommand) :
    Except CacheError CacheService :=
  match s.redis, s.enabled with
  | some b, true =>
    match redisSetex b ("mcr:commands:" ++ fileHash) (encodeCommands commands) with
    | .ok b2 => .ok { s with redis := some b2 }
    | .error _ => .ok s
  | _, _ => .ok s

/-- `getCachedCommands` (cacheService.ts lines 59–68): guarded, try/catch
converts backend errors to a miss (`null`).  The deserialized payload is
returned verbatim. -/
def getCachedCommands (s : CacheService) (fileHash : String) :
    Except CacheError (Option String) :=
  match s.redis, s.enabled with
  | some b, true =>
    match redisGet b ("mcr:commands:" ++ fileHash) with
    | .ok v => .ok v
    | .error _ => .ok none
  | _, _ => .ok none

/-- The composite key of the multi-file pattern cache:
`` `mcr:patterns:${fileHashes.sort().join(':')}` `` (JS default sort is
lexicographic on code units; `List.insertionSort` on `String` `≤` is its
stable counterpart). -/
def patternCacheKey (fileHashes : List String) : String :=
  "mcr:patterns:" ++ String.intercalate ":" (List.insertionSort (· ≤ ·) fileHashes)

/-- `cachePatternAnalysis` (already-serialized payload). -/
def cachePatternAnalysis (s : CacheService) (fileHashes : List String) (payload : String) :
    Except CacheError CacheService :=
  match s.redis, s.enabled with
  | some b, true =>
    match redisSetex b (patternCacheKey fileHashes) payload with
    | .ok b2 => .ok { s with redis := some b2 }
    | .error _ => .ok s
  | _, _ => .ok s

/-- `getCachedPatternAnalysis`. -/
def getCachedPatternAnalysis (s : CacheService) (fileHashes : List String) :
    Except CacheError (Option String) :=
  match s.redis, s.enabled with
  | some b, true =>
    match redisGet b (patternCacheKey fileHashes) with
    | .ok v => .ok v
    | .error _ => .ok none
  | _, _ => .ok none

/-- `cacheImageAnalysis`. -/
def cacheImageAnalysis (s : CacheService) (imageId : String) (payload : String) :
    Except CacheError CacheService :=
  match s.redis, s.enabled with
  | some b, true =>
    match redisSetex b ("image:analysis:" ++ imageId) payload with
    | .ok b2 => .ok { s with redis := some b2 }
    | .error _ => .ok s
  | _, _ => .ok s

/-- `getCachedImageAnalysis`. -/
def getCachedImageAnalysis (s : CacheService) (imageId : String) :
    Except CacheError (Option String) :=
  match s.redis, s.enabled with
  | some b, true =>
    match redisGet b ("image:analysis:" ++ imageId) with
    | .ok v => .ok v
    | .error _ => .ok none
  | _, _ => .ok none

/-- `incrementPatternUsage` (cacheService.ts lines 112–120): guarded, 0 when
disabled, 0 on backend error. -/
def incrementPatternUsage (s : CacheService) (patternId : String) :
    Except CacheError (Nat × CacheService) :=
  match s.redis, s.enabled with
  | some b, true =>
    match redisIncr b ("pattern:usage:" ++ patternId) with
    | .ok (n, b2) => .ok (n, { s with redis := some b2 })
    | .error _ => .ok (0, s)
  | _, _ => .ok (0, s)

/-- `getPatternUsageCount` (cacheService.ts lines 122–131). -/
def getPatternUsageCount (s : CacheService) (patternId : String) :
    Except CacheError Nat :=
  match s.redis, s.enabled with
  | some b, true =>
    match redisGet b ("pattern:usage:" ++ patternId) with
    | .ok v => .ok ((v.bind fun c => c.toNat?).getD 0)
    | .error _ => .ok 0
  | _, _ => .ok 0

/-- `invalidateFileCache` (cacheService.ts lines 133–139).  Unlike every
other operation of the service, the source has *no* `enabled`/null guard and
*no* try/catch: `this.redis.keys(...)` dereferences the nullable client, and
backend errors propagate to the caller. -/
def invalidateFileCache (s : CacheService) (fileHash : String) :
    Except CacheError CacheService :=
  match s.redis with
  | none => .error .nullDereference
  | some b =>
    match redisKeys b fileHash with
    | .error e => .error e
    | .ok keys =>
      if keys.length > 0 then
        match redisDel b keys with
        | .error e => .error e
        | .ok b2 => .ok { s with redis := some b2 }
      else .ok s

/-- `clearAllCache` (cacheService.ts lines 141–143): `this.redis.flushdb()`,
again unguarded and uncaught. -/
def clearAllCache (s : CacheService) : Except CacheError CacheService :=
  match s.redis with
  | none => .error .nullDereference
  | some b =>
    match redisFlushdb b with
    | .error e => .error e
    | .ok b2 => .ok { s with redis := some b2 }

/-! ### Humanization profiles (`server/services/profileService.ts`)

The `humanization_profiles` table is a list of rows; the `settings` jsonb
blob is carried as an opaque string and timestamp columns are not modelled
(wall-clock).  `Partial<HumanizationProfile>` updates carry one `Option` per
updatable column. -/

/-- A row of `humanization_profiles` (id unique primary key). -/
structure HumanizationProfile where
  id : String
  name : String
  description : Option String := none
  settings : String
  typingSpeed : String := "medium"
  mouseAccuracy : ℚ := 8/10
  isDefault : Bool := false
deriving Repr, DecidableEq

/-- A `Partial<HumanizationProfile>` update object; `none` means the field is
absent from the update. -/
structure ProfileUpdates where
  nameU : Option String := none
  descriptionU : Option (Option String) := none
  settingsU : Option String := none
  typingSpeedU : Option String := none
  mouseAccuracyU : Option ℚ := none
  isDefaultU : Option Bool := none
deriving Repr, DecidableEq

/-- Drizzle's `.set(updates)` applied to one row. -/
def applyUpdates (p : HumanizationProfile) (u : ProfileUpdates) : HumanizationProfile :=
  { p with
    name := u.nameU.getD p.name
    description := u.descriptionU.getD p.description
    settings := u.settingsU.getD p.settings
    typingSpeed := u.typingSpeedU.getD p.typingSpeed
    mouseAccuracy := u.mouseAccuracyU.getD p.mouseAccuracy
    isDefault := u.isDefaultU.getD p.isDefault }

/-- `UPDATE humanization_profiles SET is_default = false WHERE is_default = true`. -/
def unsetDefaults (store : List HumanizationProfile) : List HumanizationProfile :=
  store.map fun p => if p.isDefault then { p with isDefault := false } else p

/-- `ProfileService.createProfile` (profileService.ts lines 91–105): when the
new profile carries a truthy `isDefault`, unset every previous default, then
insert. -/
def createProfile (store : List HumanizationProfile) (profile : HumanizationProfile) :
    List HumanizationProfile × HumanizationProfile :=
  let store1 := if profile.isDefault then unsetDefaults store else store
  (store1 ++ [profile], profile)

/-- `ProfileService.updateProfile` (profileService.ts lines 132–150): when
`updates.isDefault` is truthy (i.e. present and `true`), unset every
previous default, then apply the updates to the row with the given id; the
updated row (or `none` when the id matches nothing) is returned. -/
def updateProfile (store : List HumanizationProfile) (id : String) (u : ProfileUpdates) :
    List HumanizationProfile × Option HumanizationProfile :=
  let store1 := if u.isDefaultU = some true then unsetDefaults store else store
  (store1.map fun p => if p.id = id then applyUpdates p u else p,
   (store1.find? fun p => decide (p.id = id)).map fun p => applyUpdates p u)

/-- Observer: how many stored profiles carry the default flag. -/
def countDefaults (store : List HumanizationProfile) : Nat :=
  store.countP fun p => p.isDefault

/-! ### Humanization settings validation (`shared/schema.ts` lines 117–128) -/

/-- The input shape of `humanizationSettingsSchema`, with every field
supplied (zod defaults concern absent fields and are orthogonal to the
range checks under study).  Numbers are rationals. -/
structure HumanizationSettingsInput where
  delayVariation : ℚ
  typingErrors : ℚ
  hesitationPauses : ℚ
  preserveStructure : Bool
  excludedKeys : Option (List String)
  removeMouseOnUpload : Bool
  timeExtensionFactor : ℚ
  minDelay : ℚ
  maxDelay : ℚ
  requiredImageId : Option String
deriving Repr, DecidableEq

/-- One zod `z.number().min(lo).max(hi)` range check. -/
def checkRange (lo hi v : ℚ) : Bool :=
  decide (lo ≤ v) && decide (v ≤ hi)

/-- The conjunction of the range checks of `humanizationSettingsSchema`:
`delayVariation` 1–100, `typingErrors` 0–10, `hesitationPauses` 0–50,
`timeExtensionFactor` 1–5, `minDelay` 0–100, `maxDelay` 10–1000.  The schema
contains no cross-field refinement. -/
def humanizationSettingsValid (s : HumanizationSettingsInput) : Bool :=
  checkRange 1 100 s.delayVariation &&
  checkRange 0 10 s.typingErrors &&
  checkRange 0 50 s.hesitationPauses &&
  checkRange 1 5 s.timeExtensionFactor &&
  checkRange 0 100 s.minDelay &&
  checkRange 10 1000 s.maxDelay

/-- `humanizationSettingsSchema.parse`: zod returns the (unmodified) object
when every check passes and reports a validation error otherwise — it never
clamps. -/
def humanizationSettingsParse (s : HumanizationSettingsInput) :
    Option HumanizationSettingsInput :=
  if humanizationSettingsValid s then some s else none

/-! ### Concrete inputs used by counterexamples and witnesses -/

/-- A keyboard keydown command. -/
def kd (k : String) : McrCommand :=
  { type := "keyboard", action := "keydown", key := some k }

/-- A delay command. -/
def dly (ms : Int) : McrCommand :=
  { type := "delay", action := "wait", delay := some ms }

/-- A keyboard command with `down` action and position payload. -/
def cexKeyboardDownA : McrCommand :=
  { type := "keyboard", action := "down", key := some "a", x := some 1, y := some 2 }

/-- A mouse command sharing action and key with `cexKeyboardDownA` but of a
different type. -/
def cexMouseDownA : McrCommand :=
  { type := "mouse", action := "down", key := some "a", x := some 9, y := some 9 }

/-- The two-file mining example of spec §8: same canonical keys across the
two files despite differing delay values. -/
def demoFiles : List (String × Option (List McrCommand)) :=
  [("F1", some [kd "a", dly 50, kd "b"]),
   ("F2", some [kd "a", dly 55, kd "b", kd "c"])]

/-- A single sequence in which the canonical window `a b a` occurs twice
(offsets 0 and 2). -/
def c4SingleFile : List (String × Option (List McrCommand)) :=
  [("f1", some [kd "a", kd "b", kd "a", kd "b", kd "a"])]

/-- Two command streams for the transition-analysis witness. -/
def demoSeqs : List (List McrCommand) :=
  [[kd "a", kd "b"], [kd "a", kd "b", kd "c"]]

/-- The Markov example of spec §8. -/
def exampleTable : TransitionTable :=
  [("keyboard:a", [("keyboard:b", 5), ("keyboard:c", 2)])]

/-- History ending in a keyboard-`a` command. -/
def exampleHistory : List McrCommand := [kd "a"]

/-- A transition table holding a single outgoing edge with count 0 (the data
model admits non-negative counts). -/
def zeroCountTable : TransitionTable := [("keyboard:a", [("keyboard:b", 0)])]

/-- A profile store holding exactly one (default) profile with id `p1`. -/
def c8Store : List HumanizationProfile :=
  [{ id := "p1", name := "Average User", settings := "settings-blob", isDefault := true }]

/-- A second profile carrying the default flag. -/
def c8Profile2 : HumanizationProfile :=
  { id := "p2", name := "Expert User", settings := "settings-blob-2", isDefault := true }

/-- An update object whose only field is a truthy `isDefault`. -/
def c8Updates : ProfileUpdates := { isDefaultU := some true }

/-- Settings in which every per-field range check passes but
`minDelay > maxDelay`. -/
def c9Invalid : HumanizationSettingsInput :=
  { delayVariation := 10, typingErrors := 1, hesitationPauses := 5,
    preserveStructure := true, excludedKeys := none, removeMouseOnUpload := true,
    timeExtensionFactor := 1, minDelay := 100, maxDelay := 10,
    requiredImageId := none }

/-- The schema's default settings, in range. -/
def c9Valid : HumanizationSettingsInput :=
  { delayVariation := 10, typingErrors := 1, hesitationPauses := 5,
    preserveStructure := true, excludedKeys := none, removeMouseOnUpload := true,
    timeExtensionFactor := 1, minDelay := 10, maxDelay := 100,
    requiredImageId := none }

/-- Two labelled command streams sharing the canonical window `a b`. -/
def c3Files : List (String × List McrCommand) :=
  [("s1", [kd "a", kd "b"]), ("s2", [kd "a", kd "b", kd "c"])]

/-- The (unique) frequent sequence mined from `c3Files` at `L = 2, F = 2`. -/
def c3Pattern : SequencePattern :=
  { sequence := [kd "a", kd "b"], frequency := 2, occurrences := [("s1", 0), ("s2", 0)] }

/-- The pattern mined from the single repetitive sequence of `c4SingleFile`:
the canonical window `a b a` occurs at offsets 0 and 2, so its frequency is
2 and its confidence is `min(2 / (1 * 2), 1) = 1`. -/
def c4Expected : MinedPattern :=
  { name := "Pattern: a-b-a"
    commandSequence := [kd "a", kd "b", kd "a"]
    frequency := 2
    confidence := 1
    sourceFileIds := ["f1"] }

/-- The frequent sequence underlying `c4Expected`. -/
def c4SeqPattern : SequencePattern :=
  { sequence := [kd "a", kd "b", kd "a"], frequency := 2,
    occurrences := [("f1", 0), ("f1", 2)] }

/-- The three frequent sequences mined from the streams of `demoFiles` at
`L = 2, F = 2`, in stable descending-frequency order. -/
def demoSeqPatterns : List SequencePattern :=
  [{ sequence := [kd "a", dly 50], frequency := 2, occurrences := [("F1", 0), ("F2", 0)] },
   { sequence := [dly 50, kd "b"], frequency := 2, occurrences := [("F1", 1), ("F2", 1)] },
   { sequence := [kd "a", dly 50, kd "b"], frequency := 2,
     occurrences := [("F1", 0), ("F2", 0)] }]

/-- One of the patterns mined from `demoFiles` at `L = 2, F = 2`. -/
def c5Pattern : MinedPattern :=
  { name := "Pattern: a"
    commandSequence := [kd "a", dly 50]
    frequency := 2
    confidence := 1/2
    sourceFileIds := ["F1", "F2"] }

/-- The two further patterns mined from `demoFiles` at `L = 2, F = 2`. -/
def c5PatternB : MinedPattern :=
  { name := "Pattern: b"
    commandSequence := [dly 50, kd "b"]
    frequency := 2
    confidence := 1/2
    sourceFileIds := ["F1", "F2"] }

/-- The length-3 pattern mined from `demoFiles` at `L = 2, F = 2`. -/
def c5PatternC : MinedPattern :=
  { name := "Pattern: a-b"
    commandSequence := [kd "a", dly 50, kd "b"]
    frequency := 2
    confidence := 1/2
    sourceFileIds := ["F1", "F2"] }

/-! ## Theorems -/

/-- Counting over a zip is symmetric once the predicate's arguments are
swapped. -/
theorem countP_zip_swap (p : McrCommand × McrCommand → Bool) :
    ∀ l1 l2 : List McrCommand,
      List.countP p (l1.zip l2) =
        List.countP (fun pr => p (pr.2, pr.1)) (l2.zip l1) := by
  intro l1
  induction l1 with
  | nil => intro l2; cases l2 <;> simp
  | cons a t ih =>
    intro l2
    cases l2 with
    | nil => simp
    | cons b t2 => simp [List.countP_cons, ih t2]

/-- The positional match test is symmetric. -/
theorem similarityMatch_swap (pr : McrCommand × McrCommand) :
    similarityMatch (pr.2, pr.1) = similarityMatch pr := by
  simp only [similarityMatch, decide_eq_decide]
  constructor <;> rintro ⟨h1, h2, h3⟩ <;> exact ⟨h1.symm, h2.symm, h3.symm⟩

/-- Claim C1 (amended): the canonical-equality test returns `true` iff the
two commands agree on `action` and `key`; the `type` field is ignored along
with the numeric/position fields.  The second conjunct shows invariance
under arbitrary changes to `type`, `delay`, `x`, `y` and `text`. -/
theorem isCommandEqual_spec :
    ∀ cmd1 cmd2 : McrCommand,
      (isCommandEqual cmd1 cmd2 = true ↔ cmd1.action = cmd2.action ∧ cmd1.key = cmd2.key) ∧
      ∀ (t : String) (d xv yv : Option Int) (tx : Option String),
        isCommandEqual { cmd1 with type := t, delay := d, x := xv, y := yv, text := tx } cmd2 =
          isCommandEqual cmd1 cmd2 := by
  intro cmd1 cmd2
  refine ⟨?_, fun t d xv yv tx => ?_⟩
  · simp [isCommandEqual, and_comm]
  · simp [isCommandEqual]

/-- Claim C1, counterexample to the claim as stated: two commands of
*different* `type` (keyboard vs mouse) but equal `action` and `key` are
reported canonically equal by `isCommandEqual`, contradicting the
"agree on all three of type, action, and key" direction of the iff. -/
theorem isCommandEqual_type_counterexample :
    isCommandEqual cexKeyboardDownA cexMouseDownA = true ∧
    ¬(cexKeyboardDownA.type = cexMouseDownA.type ∧
      cexKeyboardDownA.action = cexMouseDownA.action ∧
      cexKeyboardDownA.key = cexMouseDownA.key) := by
  decide

/-- Claim C9, counterexample to the claim as stated: the zod schema has no
cross-field refinement, so a settings object with `minDelay = 100 > 10 =
maxDelay` is accepted although `minDelay ≤ maxDelay` fails. -/
theorem humanizationSettings_minMax_counterexample :
    humanizationSettingsParse c9Invalid = some c9Invalid ∧
    ¬(c9Invalid.minDelay ≤ c9Invalid.maxDelay) := by
  decide

/-- Claim C9 (amended): validation is accept/reject, never clamping — an
accepted object is returned unchanged — and acceptance is exactly the
conjunction of the per-field range checks `delayVariation ∈ [1,100]`,
`typingErrors ∈ [0,10]`, `hesitationPauses ∈ [0,50]`,
`timeExtensionFactor ∈ [1,5]`, `minDelay ∈ [0,100]`, `maxDelay ∈ [10,1000]`;
`minDelay ≤ maxDelay` is not checked. -/
theorem humanizationSettings_validation :
    ∀ s : HumanizationSettingsInput,
      ((humanizationSettingsParse s).isSome ↔
        (1 ≤ s.delayVariation ∧ s.delayVariation ≤ 100) ∧
        (0 ≤ s.typingErrors ∧ s.typingErrors ≤ 10) ∧
        (0 ≤ s.hesitationPauses ∧ s.hesitationPauses ≤ 50) ∧
        (1 ≤ s.timeExtensionFactor ∧ s.timeExtensionFactor ≤ 5) ∧
        (0 ≤ s.minDelay ∧ s.minDelay ≤ 100) ∧
        (10 ≤ s.maxDelay ∧ s.maxDelay ≤ 1000)) ∧
      ∀ t, humanizationSettingsParse s = some t → t = s := by
  intro s
  constructor
  · by_cases h : humanizationSettingsValid s = true
    · simp only [humanizationSettingsParse, if_pos h, Option.isSome_some, true_iff]
      simpa [humanizationSettingsValid, checkRange, and_assoc] using h
    · simp only [humanizationSettingsParse, if_neg h, Option.isSome_none,
        Bool.false_eq_true, false_iff]
      intro hc
      exact h (by simp [humanizationSettingsValid, checkRange, and_assoc]; tauto)
  · intro t ht
    unfold humanizationSettingsParse at ht
    by_cases h : humanizationSettingsValid s = true
    · rw [if_pos h] at ht
      exact (Option.some_inj.mp ht).symm
    · rw [if_neg h] at ht
      exact absurd ht (by simp)

/-- Claim C9, witness: the schema's default settings are accepted and
returned unchanged. -/
theorem humanizationSettings_validation_witness :
    humanizationSettingsParse c9Valid = some c9Valid ∧ c9Valid = c9Valid :=
  ⟨by decide, (humanizationSettings_validation c9Valid).2 c9Valid (by decide)⟩

/-- Claim C10: the positional similarity score is symmetric, lies in
`[0, 1]`, and is `0` whenever either sequence is empty. -/
theorem calculateSimilarity_spec :
    ∀ seq1 seq2 : List McrCommand,
      calculateSimilarity seq1 seq2 = calculateSimilarity seq2 seq1 ∧
      0 ≤ calculateSimilarity seq1 seq2 ∧
      calculateSimilarity seq1 seq2 ≤ 1 ∧
      ((seq1 = [] ∨ seq2 = []) → calculateSimilarity seq1 seq2 = 0) := by
  intro seq1 seq2
  refine ⟨?_, ?_, ?_, ?_⟩
  · by_cases h0 : min seq1.length seq2.length = 0
    · rw [calculateSimilarity, calculateSimilarity, if_pos h0,
        if_pos (by rw [Nat.min_comm]; exact h0)]
    · rw [calculateSimilarity, calculateSimilarity, if_neg h0,
        if_neg (by rw [Nat.min_comm]; exact h0)]
      have hnum : List.countP similarityMatch (seq1.zip seq2) =
          List.countP similarityMatch (seq2.zip seq1) := by
        rw [countP_zip_swap]
        exact List.countP_congr fun x _ => by rw [similarityMatch_swap]
      rw [hnum, Nat.max_comm]
  · rw [calculateSimilarity]
    by_cases h0 : min seq1.length seq2.length = 0
    · rw [if_pos h0]
    · rw [if_neg h0]
      exact div_nonneg (Nat.cast_nonneg _) (Nat.cast_nonneg _)
  · rw [calculateSimilarity]
    by_cases h0 : min seq1.length seq2.length = 0
    · rw [if_pos h0]; norm_num
    · rw [if_neg h0]
      have hmaxpos : (0 : ℚ) < ((max seq1.length seq2.length : Nat) : ℚ) := by
        exact_mod_cast Nat.lt_of_lt_of_le (Nat.pos_of_ne_zero h0) (min_le_max)
      rw [div_le_one hmaxpos]
      exact_mod_cast Nat.le_trans
        (Nat.le_trans (List.countP_le_length _) (Nat.le_of_eq (List.length_zip seq1 seq2)))
        min_le_max
  · rintro (rfl | rfl) <;> simp [calculateSimilarity]

/-- Claim C10, witness: an empty first sequence scores `0` against a
nonempty one, by the theorem. -/
theorem calculateSimilarity_spec_witness :
    (([] : List McrCommand) = [] ∨ [kd "a"] = ([] : List McrCommand)) ∧
    calculateSimilarity [] [kd "a"] = 0 :=
  ⟨Or.inl rfl, (calculateSimilarity_spec [] [kd "a"]).2.2.2 (Or.inl rfl)⟩

/-- Claim C2: every guarded cache operation (reads, writes, usage counters)
returns normally for *every* service state — backend absent, disabled, or
erroring — and in the down state reads degrade to a miss (`none`/`0`) and
writes to a no-op.  However, `invalidateFileCache` and `clearAllCache` are
*not* guarded in the source: with the backend unavailable
(`redis === null`) they dereference `null` and raise, contradicting the
claim for those two operations. -/
theorem cacheService_failOpen :
    (∀ s fileHash commands, ∃ s2, cacheCommands s fileHash commands = .ok s2) ∧
    (∀ s fileHash, ∃ v, getCachedCommands s fileHash = .ok v) ∧
    (∀ s hashes payload, ∃ s2, cachePatternAnalysis s hashes payload = .ok s2) ∧
    (∀ s hashes, ∃ v, getCachedPatternAnalysis s hashes = .ok v) ∧
    (∀ s imageId payload, ∃ s2, cacheImageAnalysis s imageId payload = .ok s2) ∧
    (∀ s imageId, ∃ v, getCachedImageAnalysis s imageId = .ok v) ∧
    (∀ s patternId, ∃ r, incrementPatternUsage s patternId = .ok r) ∧
    (∀ s patternId, ∃ n, getPatternUsageCount s patternId = .ok n) ∧
    getCachedCommands downCacheService "h" = .ok none ∧
    (∀ commands, cacheCommands downCacheService "h" commands = .ok downCacheService) ∧
    invalidateFileCache downCacheService "h" = .error .nullDereference ∧
    clearAllCache downCacheService = .error .nullDereference := by
  refine ⟨?_, ?_, ?_, ?_, ?_, ?_, ?_, ?_, rfl, fun _ => rfl, rfl, rfl⟩
  · rintro ⟨_ | b, e⟩ fileHash commands
    · cases e <;> simp [cacheCommands]
    · cases e
      · simp [cacheCommands]
      · cases hset : redisSetex b ("mcr:commands:" ++ fileHash) (encodeCommands commands) <;>
          simp [cacheCommands, hset]
  · rintro ⟨_ | b, e⟩ fileHash
    · cases e <;> simp [getCachedCommands]
    · cases e
      · simp [getCachedCommands]
      · cases hget : redisGet b ("mcr:commands:" ++ fileHash) <;>
          simp [getCachedCommands, hget]
  · rintro ⟨_ | b, e⟩ hashes payload
    · cases e <;> simp [cachePatternAnalysis]
    · cases e
      · simp [cachePatternAnalysis]
      · cases hset : redisSetex b (patternCacheKey hashes) payload <;>
          simp [cachePatternAnalysis, hset]
  · rintro ⟨_ | b, e⟩ hashes
    · cases e <;> simp [getCachedPatternAnalysis]
    · cases e
      · simp [getCachedPatternAnalysis]
      · cases hget : redisGet b (patternCacheKey hashes) <;>
          simp [getCachedPatternAnalysis, hget]
  · rintro ⟨_ | b, e⟩ imageId payload
    · cases e <;> simp [cacheImageAnalysis]
    · cases e
      · simp [cacheImageAnalysis]
      · cases hset : redisSetex b ("image:analysis:" ++ imageId) payload <;>
          simp [cacheImageAnalysis, hset]
  · rintro ⟨_ | b, e⟩ imageId
    · cases e <;> simp [getCachedImageAnalysis]
    · cases e
      · simp [getCachedImageAnalysis]
      · cases hget : redisGet b ("image:analysis:" ++ imageId) <;>
          simp [getCachedImageAnalysis, hget]
  · rintro ⟨_ | b, e⟩ patternId
    · cases e <;> simp [incrementPatternUsage]
    · cases e
      · simp [incrementPatternUsage]
      · cases hincr : redisIncr b ("pattern:usage:" ++ patternId) with
        | error err => simp [incrementPatternUsage, hincr]
        | ok pr => simp [incrementPatternUsage, hincr]
  · rintro ⟨_ | b, e⟩ patternId
    · cases e <;> simp [getPatternUsageCount]
    · cases e
      · simp [getPatternUsageCount]
      · cases hget : redisGet b ("pattern:usage:" ++ patternId) <;>
          simp [getPatternUsageCount, hget]

/-- A row after the unset-defaults update keeps its id. -/
theorem unsetDefaults_row_id (p : HumanizationProfile) :
    (if p.isDefault then { p with isDefault := false } else p).id = p.id := by
  cases hp : p.isDefault <;> simp [hp]

/-- A row after the unset-defaults update never carries the flag. -/
theorem unsetDefaults_row_flag (p : HumanizationProfile) :
    (if p.isDefault then { p with isDefault := false } else p).isDefault = false := by
  cases hp : p.isDefault <;> simp [hp]

/-- After `UPDATE ... SET is_default = false WHERE is_default = true`,
no stored profile is default. -/
theorem countDefaults_unsetDefaults (store : List HumanizationProfile) :
    countDefaults (unsetDefaults store) = 0 := by
  rw [countDefaults, unsetDefaults, List.countP_map]
  exact List.countP_eq_zero.mpr fun p _ => by
    simp [Function.comp, unsetDefaults_row_flag p]

/-- Pointwise effect of `updateProfile`'s row map after the unset-defaults
pass: a row carries the flag afterwards exactly when its id is the updated
one (given the update carries a truthy `isDefault`). -/
theorem updateRow_flag (p : HumanizationProfile) (u : ProfileUpdates) (id : String)
    (hu : u.isDefaultU = some true) :
    (if (if p.isDefault then { p with isDefault := false } else p).id = id then
        applyUpdates (if p.isDefault then { p with isDefault := false } else p) u
      else if p.isDefault then { p with isDefault := false } else p).isDefault
      = decide (p.id = id) := by
  cases hp : p.isDefault <;> by_cases hid : p.id = id <;>
    simp [applyUpdates, hp, hid, hu]

/-- Claim C8, counterexample to the claim as stated: updating a
*nonexistent* profile id with `isDefault = true` first unsets the existing
default and then updates no row, leaving the store with zero defaults
instead of exactly one (and the operation reports no matching profile). -/
theorem updateProfile_missingId_counterexample :
    c8Updates.isDefaultU = some true ∧
    (updateProfile c8Store "p2" c8Updates).2 = none ∧
    countDefaults (updateProfile c8Store "p2" c8Updates).1 = 0 := by
  decide

/-- Claim C8 (amended): after `createProfile` with `isDefault = true` the
store has exactly one default; after `updateProfile` with a truthy
`isDefault` whose id matches exactly one stored row (ids are primary keys),
the store has exactly one default.  (When the id matches no row, every
default is unset and none is set — see the counterexample.) -/
theorem defaultProfile_invariant :
    ∀ (store : List HumanizationProfile) (profile : HumanizationProfile)
      (id : String) (u : ProfileUpdates),
      (profile.isDefault = true → countDefaults (createProfile store profile).1 = 1) ∧
      (u.isDefaultU = some true →
        store.countP (fun q => decide (q.id = id)) = 1 →
        countDefaults (updateProfile store id u).1 = 1) := by
  intro store profile id u
  constructor
  · intro h
    rw [createProfile]
    simp only [h, if_true]
    rw [countDefaults, List.countP_append]
    have h0 := countDefaults_unsetDefaults store
    rw [countDefaults] at h0
    rw [h0, List.countP_cons, List.countP_nil, h]
    simp
  · intro hu hcount
    rw [updateProfile]
    simp only [hu, if_pos]
    rw [countDefaults, List.countP_map, unsetDefaults, List.countP_map]
    refine Eq.trans (List.countP_congr fun p _ => ?_) hcount
    simp only [Function.comp_apply]
    rw [updateRow_flag p u id hu]

/-- Claim C8, witness: creating a second default profile over a store that
already has one leaves exactly one default, and an update targeting the
existing id `p1` does too. -/
theorem defaultProfile_invariant_witness :
    c8Profile2.isDefault = true ∧
    countDefaults (createProfile c8Store c8Profile2).1 = 1 ∧
    c8Updates.isDefaultU = some true ∧
    List.countP (fun q => decide (q.id = "p1")) c8Store = 1 ∧
    countDefaults (updateProfile c8Store "p1" c8Updates).1 = 1 :=
  ⟨rfl, (defaultProfile_invariant c8Store c8Profile2 "p1" c8Updates).1 rfl,
   rfl, by decide,
   (defaultProfile_invariant c8Store c8Profile2 "p1" c8Updates).2 rfl (by decide)⟩

/-- Claim C3: every group surviving frequent-sequence mining has frequency
at least the supplied minimum, the result is sorted by descending frequency
(`freqDesc`), and it holds at most 100 groups. -/
theorem findFrequentSequences_spec :
    ∀ (allCommands : List (String × List McrCommand)) (minLength minFrequency : Nat),
      (∀ p ∈ findFrequentSequences allCommands minLength minFrequency,
        minFrequency ≤ p.frequency) ∧
      (findFrequentSequences allCommands minLength minFrequency).Sorted freqDesc ∧
      (findFrequentSequences allCommands minLength minFrequency).length ≤ 100 := by
  intro allCommands minLength minFrequency
  refine ⟨?_, ?_, ?_⟩
  · intro p hp
    rw [findFrequentSequences] at hp
    have h1 := List.mem_of_mem_take hp
    rw [List.mem_insertionSort] at h1
    exact of_decide_eq_true (List.mem_filter.mp h1).2
  · rw [findFrequentSequences]
    exact List.Pairwise.sublist (List.take_sublist _ _)
      (List.sorted_insertionSort freqDesc _)
  · rw [findFrequentSequences]
    exact List.length_take_le _ _

/-- Claim C3, witness: the pattern mined from `c3Files` is in the result and
its frequency meets the minimum 2. -/
theorem findFrequentSequences_spec_witness :
    c3Pattern ∈ findFrequentSequences c3Files 2 2 ∧ 2 ≤ c3Pattern.frequency :=
  ⟨by decide, (findFrequentSequences_spec c3Files 2 2).1 c3Pattern (by decide)⟩

/-- Evaluation: the frequent sequences of the single repetitive stream. -/
theorem findFrequentSequences_c4_eval :
    findFrequentSequences [("f1", [kd "a", kd "b", kd "a", kd "b", kd "a"])] 3 2 =
      [c4SeqPattern] := by
  decide

/-- Evaluation: mining the single repetitive stream persists exactly the
`a b a` pattern. -/
theorem minePatterns_c4_eval : minePatterns c4SingleFile 3 2 = [c4Expected] := by
  rw [minePatterns,
    show (c4SingleFile.filterMap fun f => f.2.map fun cs => (f.1, cs)) =
      [("f1", [kd "a", kd "b", kd "a", kd "b", kd "a"])] from rfl,
    findFrequentSequences_c4_eval]
  simp only [List.map_cons, List.map_nil]
  dsimp only [c4SeqPattern]
  rw [show calculateConfidence 2 c4SingleFile.length = 1 by
    norm_num [calculateConfidence, c4SingleFile]]
  decide

/-- Evaluation: the frequent sequences of the two demo streams. -/
theorem findFrequentSequences_demo_eval :
    findFrequentSequences
      [("F1", [kd "a", dly 50, kd "b"]), ("F2", [kd "a", dly 55, kd "b", kd "c"])] 2 2 =
      demoSeqPatterns := by
  decide

/-- Evaluation: mining the demo streams persists the three frequency-2
patterns, each with confidence `1/2`. -/
theorem minePatterns_demo_eval :
    minePatterns demoFiles 2 2 = [c5Pattern, c5PatternB, c5PatternC] := by
  rw [minePatterns,
    show (demoFiles.filterMap fun f => f.2.map fun cs => (f.1, cs)) =
      [("F1", [kd "a", dly 50, kd "b"]), ("F2", [kd "a", dly 55, kd "b", kd "c"])] from rfl,
    findFrequentSequences_demo_eval]
  rw [demoSeqPatterns]
  simp only [List.map_cons, List.map_nil]
  rw [show calculateConfidence 2 demoFiles.length = 1/2 by
    norm_num [calculateConfidence, demoFiles]]
  simp only [c5Pattern, c5PatternB, c5PatternC, MinedPattern.mk.injEq, List.cons.injEq,
    and_true, true_and]
  decide

/-- Claim C4, counterexample to the claim as stated: a mining input holding
exactly *one* sequence yields a (non-empty) pattern list, because a
canonical window can repeat within a single sequence. -/
theorem minePatterns_singleSequence_counterexample :
    c4SingleFile.length = 1 ∧ (minePatterns c4SingleFile 3 2).length = 1 := by
  exact ⟨rfl, by rw [minePatterns_c4_eval]; rfl⟩

/-- Claim C4 (amended): an empty input list yields no patterns (and no
error); an input holding exactly one sequence can still yield patterns when
a canonical window repeats within it — `c4SingleFile` mines to exactly the
`a b a` pattern with frequency 2. -/
theorem minePatterns_smallInputs :
    (∀ minLen minFreq, minePatterns [] minLen minFreq = []) ∧
    minePatterns c4SingleFile 3 2 = [c4Expected] := by
  refine ⟨fun minLen minFreq => ?_, minePatterns_c4_eval⟩
  simp [minePatterns, findFrequentSequences]

/-- Claim C5: every pattern persisted by mining carries
`confidence = min(frequency / (sourceCount * 2), 1)` where `sourceCount` is
the number of supplied files, hence confidence lies in `[0, 1]`. -/
theorem minePatterns_confidence_spec :
    ∀ (files : List (String × Option (List McrCommand))) (minLen minFreq : Nat)
      (p : MinedPattern), p ∈ minePatterns files minLen minFreq →
      p.confidence = min ((p.frequency : ℚ) / ((files.length : ℚ) * 2)) 1 ∧
      0 ≤ p.confidence ∧ p.confidence ≤ 1 := by
  intro files minLen minFreq p hp
  rw [minePatterns] at hp
  obtain ⟨q, hq, rfl⟩ := List.mem_map.mp hp
  have hn : files.length ≠ 0 := by
    intro h0
    rw [List.length_eq_zero.mp h0] at hq
    simp [findFrequentSequences] at hq
  dsimp only
  rw [calculateConfidence, if_neg hn]
  refine ⟨rfl, le_min (div_nonneg (Nat.cast_nonneg _) ?_) zero_le_one, min_le_right _ _⟩
  positivity

/-- Claim C5, witness: the `a`-then-delay pattern mined from `demoFiles`
carries `confidence = min(2 / (2 * 2), 1) = 1/2 ∈ [0, 1]`. -/
theorem minePatterns_confidence_witness :
    c5Pattern ∈ minePatterns demoFiles 2 2 ∧
    (c5Pattern.confidence = min ((c5Pattern.frequency : ℚ) / ((demoFiles.length : ℚ) * 2)) 1 ∧
      0 ≤ c5Pattern.confidence ∧ c5Pattern.confidence ≤ 1) :=
  ⟨by rw [minePatterns_demo_eval]; exact List.mem_cons_self _ _,
   minePatterns_confidence_spec demoFiles 2 2 c5Pattern
     (by rw [minePatterns_demo_eval]; exact List.mem_cons_self _ _)⟩

/-- Bumping the inner counter map adds exactly one to the bumped key and
leaves every other key's count unchanged. -/
theorem bumpInner_count (inner : List (String × Nat)) (next b : String) :
    innerCount (bumpInner inner next) b
      = innerCount inner b + (if next = b then 1 else 0) := by
  induction inner with
  | nil =>
    show (if next = b then 1 else innerCount [] b)
        = innerCount [] b + (if next = b then 1 else 0)
    by_cases hn2 : next = b
    · rw [if_pos hn2, if_pos hn2, innerCount]
    · rw [if_neg hn2, if_neg hn2, innerCount]
  | cons e rest ih =>
    rw [bumpInner]
    by_cases he : e.1 = next
    · rw [if_pos he]
      show (if e.1 = b then e.2 + 1 else innerCount rest b)
          = (if e.1 = b then e.2 else innerCount rest b) + (if next = b then 1 else 0)
      by_cases hb : e.1 = b
      · rw [if_pos hb, if_pos hb, if_pos (he.symm.trans hb)]
      · rw [if_neg hb, if_neg hb, if_neg (fun hnb => hb (he.trans hnb))]
        omega
    · rw [if_neg he]
      show (if e.1 = b then e.2 else innerCount (bumpInner rest next) b)
          = (if e.1 = b then e.2 else innerCount rest b) + (if next = b then 1 else 0)
      by_cases hb : e.1 = b
      · rw [if_pos hb, if_pos hb, if_neg (fun hnb => he (hb.trans hnb.symm))]
        omega
      · rw [if_neg hb, if_neg hb, ih]

/-- Bumping the transition table adds exactly one to the bumped edge and
leaves every other edge's count unchanged. -/
theorem bumpTransition_count (t : TransitionTable) (c n a b : String) :
    transitionCount (bumpTransition t c n) a b
      = transitionCount t a b + (if c = a ∧ n = b then 1 else 0) := by
  induction t with
  | nil =>
    show (if c = a then innerCount (bumpInner [] n) b else transitionCount [] a b)
        = transitionCount [] a b + (if c = a ∧ n = b then 1 else 0)
    by_cases hc : c = a
    · rw [if_pos hc]
      show (if n = b then 1 else innerCount [] b)
          = transitionCount [] a b + (if c = a ∧ n = b then 1 else 0)
      by_cases hn2 : n = b
      · rw [if_pos hn2, if_pos ⟨hc, hn2⟩, transitionCount]
      · rw [if_neg hn2, if_neg (fun h => hn2 h.2), transitionCount, innerCount]
    · rw [if_neg hc, if_neg (fun h => hc h.1)]
      omega
  | cons e rest ih =>
    rw [bumpTransition]
    by_cases he : e.1 = c
    · rw [if_pos he]
      show (if e.1 = a then innerCount (bumpInner e.2 n) b else transitionCount rest a b)
          = (if e.1 = a then innerCount e.2 b else transitionCount rest a b)
            + (if c = a ∧ n = b then 1 else 0)
      by_cases ha : e.1 = a
      · rw [if_pos ha, if_pos ha, bumpInner_count]
        by_cases hn2 : n = b
        · rw [if_pos hn2, if_pos ⟨he.symm.trans ha, hn2⟩]
        · rw [if_neg hn2, if_neg (fun h => hn2 h.2)]
      · rw [if_neg ha, if_neg ha, if_neg (fun h => ha (he.trans h.1))]
        omega
    · rw [if_neg he]
      show (if e.1 = a then innerCount e.2 b else transitionCount (bumpTransition rest c n) a b)
          = (if e.1 = a then innerCount e.2 b else transitionCount rest a b)
            + (if c = a ∧ n = b then 1 else 0)
      by_cases ha : e.1 = a
      · rw [if_pos ha, if_pos ha, if_neg (fun h => he (ha.trans h.1.symm))]
        omega
      · rw [if_neg ha, if_neg ha, ih]

/-- Folding the adjacent pairs of one stream into the table adds, per edge,
exactly the number of pairs projecting to that edge. -/
theorem foldl_bumpTransition_count (pairs : List (McrCommand × McrCommand)) :
    ∀ (t : TransitionTable) (a b : String),
      transitionCount
          (pairs.foldl
            (fun t pr => bumpTransition t (transitionKey pr.1) (transitionKey pr.2)) t) a b
        = transitionCount t a b +
            List.countP
              (fun pr => decide (transitionKey pr.1 = a ∧ transitionKey pr.2 = b)) pairs := by
  induction pairs with
  | nil => intro t a b; rw [List.foldl_nil, List.countP_nil]; omega
  | cons pr rest ih =>
    intro t a b
    rw [List.foldl_cons, ih, bumpTransition_count, List.countP_cons]
    simp only [decide_eq_true_eq]
    omega

/-- Accumulating every stream: the count at each edge grows by the
specification-side pair count. -/
theorem foldl_addSequenceTransitions_count (files : List (List McrCommand)) :
    ∀ (t : TransitionTable) (a b : String),
      transitionCount (files.foldl addSequenceTransitions t) a b
        = transitionCount t a b + specAdjacentPairCount files a b := by
  induction files with
  | nil => intro t a b; rw [List.foldl_nil, specAdjacentPairCount]; simp
  | cons cs rest ih =>
    intro t a b
    rw [List.foldl_cons, ih, addSequenceTransitions, foldl_bumpTransition_count]
    simp only [specAdjacentPairCount, List.map_cons, List.sum_cons]
    omega

/-- Positivity is preserved by the inner bump. -/
theorem bumpInner_pos (inner : List (String × Nat)) (next : String)
    (h : ∀ e ∈ inner, 1 ≤ e.2) : ∀ e ∈ bumpInner inner next, 1 ≤ e.2 := by
  induction inner with
  | nil => simp [bumpInner]
  | cons e rest ih =>
    rw [bumpInner]
    split_ifs with he
    · intro x hx
      rcases List.mem_cons.mp hx with rfl | hx'
      · simp
      · exact h x (List.mem_cons_of_mem _ hx')
    · intro x hx
      rcases List.mem_cons.mp hx with rfl | hx'
      · exact h x (List.mem_cons_self _ _)
      · exact ih (fun y hy => h y (List.mem_cons_of_mem _ hy)) x hx'

/-- Positivity is preserved by the table bump. -/
theorem bumpTransition_pos (t : TransitionTable) (c n : String)
    (h : ∀ e ∈ t, ∀ e2 ∈ e.2, 1 ≤ e2.2) :
    ∀ e ∈ bumpTransition t c n, ∀ e2 ∈ e.2, 1 ≤ e2.2 := by
  induction t with
  | nil =>
    rw [bumpTransition]
    intro e he e2 he2
    rcases List.mem_cons.mp he with rfl | hx
    · exact bumpInner_pos [] n (by simp) e2 he2
    · simp at hx
  | cons e rest ih =>
    rw [bumpTransition]
    split_ifs with he
    · intro x hx e2 he2
      rcases List.mem_cons.mp hx with rfl | hx'
      · exact bumpInner_pos e.2 n (h e (List.mem_cons_self _ _)) e2 he2
      · exact h x (List.mem_cons_of_mem _ hx') e2 he2
    · intro x hx e2 he2
      rcases List.mem_cons.mp hx with rfl | hx'
      · exact h x (List.mem_cons_self _ _) e2 he2
      · exact ih (fun y hy => h y (List.mem_cons_of_mem _ hy)) x hx' e2 he2

/-- Positivity is preserved around one stream's fold. -/
theorem foldl_bumpTransition_pos (pairs : List (McrCommand × McrCommand)) :
    ∀ t : TransitionTable, (∀ e ∈ t, ∀ e2 ∈ e.2, 1 ≤ e2.2) →
      ∀ e ∈ pairs.foldl
          (fun t pr => bumpTransition t (transitionKey pr.1) (transitionKey pr.2)) t,
        ∀ e2 ∈ e.2, 1 ≤ e2.2 := by
  induction pairs with
  | nil => intro t h; exact h
  | cons pr rest ih =>
    intro t h
    rw [List.foldl_cons]
    exact ih _ (bumpTransition_pos t _ _ h)

/-- Positivity is preserved across all streams. -/
theorem foldl_addSequenceTransitions_pos (files : List (List McrCommand)) :
    ∀ t : TransitionTable, (∀ e ∈ t, ∀ e2 ∈ e.2, 1 ≤ e2.2) →
      ∀ e ∈ files.foldl addSequenceTransitions t, ∀ e2 ∈ e.2, 1 ≤ e2.2 := by
  induction files with
  | nil => intro t h; exact h
  | cons cs rest ih =>
    intro t h
    rw [List.foldl_cons]
    exact ih _ (foldl_bumpTransition_pos _ t h)

/-- Claim C6: the table built by transition analysis stores, at every edge
`a -> b`, exactly the number of adjacent pairs within individual sequences
whose state-key projections are `a` and `b` (pairs never span two
sequences, as the specification-side count only ranges within each
sequence), and every stored count is a positive integer. -/
theorem analyzeCommandTransitions_spec :
    ∀ (files : List (List McrCommand)) (a b : String),
      transitionCount (analyzeCommandTransitions files) a b
        = specAdjacentPairCount files a b ∧
      ∀ e ∈ analyzeCommandTransitions files, ∀ e2 ∈ e.2, 1 ≤ e2.2 := by
  intro files a b
  constructor
  · rw [analyzeCommandTransitions, foldl_addSequenceTransitions_count, transitionCount,
      Nat.zero_add]
  · exact foldl_addSequenceTransitions_pos files [] (by simp)

/-- Claim C6, witness: on `demoSeqs` the `keyboard:a -> keyboard:b` edge
counts its two within-sequence pairs, and the concrete stored count 2 is
positive. -/
theorem analyzeCommandTransitions_witness :
    transitionCount (analyzeCommandTransitions demoSeqs) "keyboard:a" "keyboard:b"
      = specAdjacentPairCount demoSeqs "keyboard:a" "keyboard:b" ∧
    ("keyboard:a", [("keyboard:b", 2)]) ∈ analyzeCommandTransitions demoSeqs ∧
    ("keyboard:b", 2) ∈ [("keyboard:b", 2)] ∧
    1 ≤ (("keyboard:b", 2) : String × Nat).2 :=
  ⟨(analyzeCommandTransitions_spec demoSeqs "keyboard:a" "keyboard:b").1,
   by decide, by decide,
   (analyzeCommandTransitions_spec demoSeqs "keyboard:a" "keyboard:b").2
     ("keyboard:a", [("keyboard:b", 2)]) (by decide) ("keyboard:b", 2) (by decide)⟩

/-- The scan's result dominates the accumulator and every edge count. -/
theorem selectBestAux_le (edges : List (String × Nat)) :
    ∀ acc : String × Nat,
      acc.2 ≤ (selectBestAux edges acc).2 ∧
      ∀ p ∈ edges, p.2 ≤ (selectBestAux edges acc).2 := by
  induction edges with
  | nil => intro acc; exact ⟨Nat.le_refl _, by simp⟩
  | cons e rest ih =>
    intro acc
    rw [selectBestAux]
    obtain ⟨h1, h2⟩ := ih (if acc.2 < e.2 then (e.1, e.2) else acc)
    have hacc : acc.2 ≤ (if acc.2 < e.2 then (e.1, e.2) else acc).2 := by
      split_ifs with h
      · exact Nat.le_of_lt h
      · exact Nat.le_refl _
    have he2 : e.2 ≤ (if acc.2 < e.2 then (e.1, e.2) else acc).2 := by
      split_ifs with h
      · exact Nat.le_refl _
      · exact Nat.le_of_not_lt h
    refine ⟨Nat.le_trans hacc h1, ?_⟩
    intro p hp
    rcases List.mem_cons.mp hp with rfl | hp'
    · exact Nat.le_trans he2 h1
    · exact h2 p hp'

/-- The scan's result is the accumulator or one of the edges. -/
theorem selectBestAux_mem (edges : List (String × Nat)) :
    ∀ acc : String × Nat,
      selectBestAux edges acc = acc ∨ selectBestAux edges acc ∈ edges := by
  induction edges with
  | nil => intro acc; exact Or.inl rfl
  | cons e rest ih =>
    intro acc
    rw [selectBestAux]
    rcases ih (if acc.2 < e.2 then (e.1, e.2) else acc) with h | h
    · rw [h]
      split_ifs with hc
      · exact Or.inr (by simp)
      · exact Or.inl rfl
    · exact Or.inr (List.mem_cons_of_mem _ h)

/-- Claim C7: prediction returns `none` exactly when the history is empty
(then `lastStateEdges` is `none`), the last command's state has no entry
(`none`) or an empty edge map (`some []`); otherwise — on tables whose
counts are positive, as every table built by `analyzeCommandTransitions`
is — it returns the command rebuilt from an edge of maximal count.  The
closing conjunct is the spec §8 example: from a prior keyboard-`a` command
over `{keyboard:a -> {keyboard:b: 5, keyboard:c: 2}}` it returns the
keyboard-`b` state. -/
theorem getPredictedNextCommand_spec :
    ∀ (previousCommands : List McrCommand) (transitions : TransitionTable),
      (getPredictedNextCommand previousCommands transitions = none ↔
        lastStateEdges previousCommands transitions = none ∨
        lastStateEdges previousCommands transitions = some []) ∧
      (∀ edges, lastStateEdges previousCommands transitions = some edges →
        edges ≠ [] → (∀ p ∈ edges, 1 ≤ p.2) →
        ∃ k c, (k, c) ∈ edges ∧ (∀ p ∈ edges, p.2 ≤ c) ∧
          getPredictedNextCommand previousCommands transitions =
            some (commandFromStateKey k)) ∧
      getPredictedNextCommand exampleHistory exampleTable =
        some { type := "keyboard", action := "keydown", key := some "b" } := by
  intro h t
  refine ⟨?_, ?_, by decide⟩
  · rw [getPredictedNextCommand, lastStateEdges]
    cases hl : h.getLast? with
    | none => simp
    | some lastCmd =>
      dsimp only
      cases hf : t.find? (fun e => decide (e.1 = transitionKey lastCmd)) with
      | none => simp [hf]
      | some entry =>
        dsimp only
        cases hentry : entry.2 with
        | nil => simp [hf, hentry]
        | cons x xs => simp [hf, hentry]
  · intro edges hE hne hpos
    rw [lastStateEdges] at hE
    cases hl : h.getLast? with
    | none => rw [hl] at hE; simp at hE
    | some lastCmd =>
      rw [hl] at hE
      simp only [Option.some_bind] at hE
      cases hf : t.find? (fun e => decide (e.1 = transitionKey lastCmd)) with
      | none => rw [hf] at hE; simp at hE
      | some entry =>
        rw [hf] at hE
        have hE2 : entry.2 = edges := by simpa using hE
        subst hE2
        refine ⟨(selectBestAux entry.2 ("", 0)).1, (selectBestAux entry.2 ("", 0)).2,
          ?_, (selectBestAux_le entry.2 ("", 0)).2, ?_⟩
        · rcases selectBestAux_mem entry.2 ("", 0) with hm | hm
          · exfalso
            obtain ⟨e0, rest0, h0⟩ := List.exists_cons_of_ne_nil hne
            have h1 := (selectBestAux_le entry.2 ("", 0)).2 e0 (by rw [h0]; simp)
            have h2 := hpos e0 (by rw [h0]; simp)
            rw [hm] at h1
            omega
          · simpa using hm
        · rw [getPredictedNextCommand, hl]
          dsimp only
          rw [hf]
          dsimp only
          rw [if_neg (by simp [List.isEmpty_iff, hne])]

/-- Claim C7, counterexample to the claim as stated: over a table whose
only outgoing edge carries count 0 — admissible, since the data model
allows non-negative counts — the scan never overtakes its initial
`maxCount = 0`, `bestNext = ''` state, so prediction returns the command
parsed from the empty string rather than the unique (hence maximal) edge's
`keyboard:b` state, and it does not return `none` either. -/
theorem getPredictedNextCommand_zeroCount_counterexample :
    getPredictedNextCommand exampleHistory zeroCountTable =
      some { type := "", action := "", key := none } ∧
    commandFromStateKey "keyboard:b" ≠
      ({ type := "", action := "", key := none } : McrCommand) := by
  decide

/-- Claim C7, witness: the spec example's edge map is looked up, is
nonempty with positive counts, and prediction selects the maximal edge
`keyboard:b`, returning the keyboard-`b` keydown command. -/
theorem getPredictedNextCommand_witness :
    lastStateEdges exampleHistory exampleTable =
      some [("keyboard:b", 5), ("keyboard:c", 2)] ∧
    (∃ k c, (k, c) ∈ [(("keyboard:b" : String), (5 : Nat)), ("keyboard:c", 2)] ∧
      (∀ p ∈ [(("keyboard:b" : String), (5 : Nat)), ("keyboard:c", 2)], p.2 ≤ c) ∧
      getPredictedNextCommand exampleHistory exampleTable =
        some (commandFromStateKey k)) ∧
    getPredictedNextCommand exampleHistory exampleTable =
      some { type := "keyboard", action := "keydown", key := some "b" } :=
  ⟨by decide,
   (getPredictedNextCommand_spec exampleHistory exampleTable).2.1
     [("keyboard:b", 5), ("keyboard:c", 2)] (by decide) (by decide) (by decide),
   (getPredictedNextCommand_spec exampleHistory exampleTable).2.2⟩

end Tum
